import Mathlib

/-!
Shallow embedding of `transcribeSummarize.py` (a directory transcription
tool built on whisper) and proofs about its discovery filter, its
skip/force policy, its two transcription strategies and its driver loop.

Modelling conventions:

* A Python string is a `List Char` (`PyStr`).
* The filesystem is a partial map from path strings to file contents
  (`FS := PyStr → Option PyStr`).  The operating system resolves a
  relative path beginning with `./` and a path beginning with `//` to
  the same location as the stripped form, so the map is keyed by
  `normPath`-normalised strings and every read/write goes through it.
* `pathlib.Path(directory).rglob("*")` yields every entry (files AND
  directories) under the root; the embedding takes this stream as an
  explicit `List Entry` argument, each entry carrying the full `str(p)`
  and whether it is a regular file.
* The whisper engine and the external `whisper` subprocess are opaque
  collaborators; the embedding takes their behaviour as explicit oracle
  arguments (`EngineResult`, `SubprocOutcome`).
* A Python exception that escapes a function is an `Except.error` in
  the returned `TOut`, which also carries the filesystem at the moment
  of the raise and a ghost event trace recording which strategy ran.
-/

abbrev PyStr := List Char

abbrev FS := PyStr → Option PyStr

/-- A filesystem entry as yielded by `pathlib.Path(directory).rglob("*")`:
its full path string and whether it is a regular file (as opposed to a
directory). -/
structure Entry where
  path : PyStr
  isFile : Bool
deriving DecidableEq, Repr

/-- Python `needle in hay` on strings: `needle` occurs contiguously in
`hay`. -/
def containsSub (needle : PyStr) : PyStr → Bool
  | [] => needle.isEmpty
  | c :: rest => List.isPrefixOf needle (c :: rest) || containsSub needle rest

/-- Split a list at the LAST occurrence of `c`: returns
`some (before, after)` with `s = before ++ c :: after` and `c ∉ after`,
or `none` when `c` does not occur. -/
def splitLast (c : Char) : PyStr → Option (PyStr × PyStr)
  | [] => none
  | x :: xs =>
    match splitLast c xs with
    | some (b, a) => some (x :: b, a)
    | none => if x = c then some ([], xs) else none

/-- `str(pathlib.Path(p).name)`: the part after the last slash (the whole
string when there is no slash).  Faithful for paths already in
`pathlib` normal form (see `WFPath`). -/
def pyName (p : PyStr) : PyStr :=
  match splitLast '/' p with
  | some (_, n) => n
  | none => p

/-- `str(pathlib.Path(p).parent)`: everything before the last slash, `"."`
when there is no slash, `"/"` when the only content before the last slash
is empty.  Faithful for paths in `pathlib` normal form (see `WFPath`). -/
def pyParentStr (p : PyStr) : PyStr :=
  match splitLast '/' p with
  | some ([], _) => ['/']
  | some (b, _) => b
  | none => ['.']

/-- `pathlib`'s split of a file NAME into `(stem, suffix)`: the suffix is
`name[i:]` for `i = name.rfind('.')` when `0 < i < len(name) - 1`, else
empty; the stem is the rest.  By construction `stem ++ suffix = name`. -/
def pySplitExt (n : PyStr) : PyStr × PyStr :=
  match splitLast '.' n with
  | some (b, a) => if b ≠ [] ∧ a ≠ [] then (b, '.' :: a) else (n, [])
  | none => (n, [])

/-- `pathlib.Path(p).stem` as a string. -/
def pyStem (p : PyStr) : PyStr := (pySplitExt (pyName p)).1

/-- `pathlib.Path(p).suffix` as a string. -/
def pySuffix (p : PyStr) : PyStr := (pySplitExt (pyName p)).2

/-- Split a list on every occurrence of `c` (the components of a path for
`c = '/'`); never returns `[]`. -/
def splitAll (c : Char) : PyStr → List PyStr
  | [] => [[]]
  | x :: xs =>
    match splitAll c xs with
    | [] => [[x]]
    | h :: t => if x = c then [] :: h :: t else (x :: h) :: t

/-- A path component that `pathlib` keeps verbatim: nonempty and not a
`.` or `..` pseudo-component. -/
def wfComponent (s : PyStr) : Bool :=
  !s.isEmpty && s ≠ ['.'] && s ≠ ['.', '.']

/-- The path string is in `pathlib` normal form: nonempty, no empty
component (no `//`, no trailing `/`) except a single leading one for an
absolute path, and no `.` / `..` components.  On such strings
`str(pathlib.Path(p)) = p` and `pyName` / `pyParentStr` / `pyStem` /
`pySuffix` agree with `pathlib`. -/
def WFPath (p : PyStr) : Bool :=
  !p.isEmpty &&
    match splitAll '/' p with
    | [] => false
    | c :: cs => (c.isEmpty || wfComponent c) && cs.all wfComponent

/-- Normalisation the OS applies when a path string is used: a leading
`./` is dropped and a leading `//` collapses to `/` (the only two
non-identity cases produced by this program on well-formed inputs). -/
def normPath (p : PyStr) : PyStr :=
  match p with
  | '.' :: '/' :: rest => rest
  | '/' :: '/' :: rest => '/' :: rest
  | _ => p

/-- Write `content` at path `p` (creating or truncating): the map is
updated at the OS-resolved location. -/
def fsWrite (fs : FS) (p : PyStr) (content : PyStr) : FS :=
  fun q => if q = normPath p then some content else fs q

/-- `pathlib.Path(p).exists()`. -/
def fsExists (fs : FS) (p : PyStr) : Bool :=
  (fs (normPath p)).isSome

/-- The extension alternatives of the default regex
`.*\.(wav|mp3|mp4|avi|mov|flv|mkv|wmv)$`, in source order. -/
def extList : List PyStr :=
  ["wav".data, "mp3".data, "mp4".data, "avi".data, "mov".data,
   "flv".data, "mkv".data, "wmv".data]

/-- Drop one trailing newline, if present (the position where Python's
`$` anchor may also match). -/
def stripOneNL (s : PyStr) : PyStr :=
  match s.reverse with
  | '\n' :: rest => rest.reverse
  | _ => s

/-- `re.compile(r".*\.(wav|mp3|mp4|avi|mov|flv|mkv|wmv)$").match(s)` as a
Boolean: `.*` cannot cross a newline and `$` matches at the end or just
before one trailing newline, so the string (with at most one trailing
newline removed) must be newline-free and end in a dot followed by one
of the extensions, case-sensitively. -/
def defaultPattern (s : PyStr) : Bool :=
  let t := stripOneNL s
  !t.contains '\n' && extList.any (fun e => List.isSuffixOf ('.' :: e) t)

/-- `get_files_recursive(directory, pattern, ignore, action)`:
`entries` is the stream `pathlib.Path(directory).rglob("*")` (files and
directories alike, full path strings, traversal order).  Keeps the
entries whose path string matches the pattern (default: the media-file
regex), then drops those containing the `ignore` substring, then maps
`action` over the survivors. -/
def get_files_recursive (entries : List Entry)
    (pattern : Option (PyStr → Bool)) (ignore : Option PyStr)
    (action : Option (PyStr → PyStr)) : List PyStr :=
  let pat := pattern.getD defaultPattern
  let files := (entries.map Entry.path).filter pat
  let files2 :=
    match ignore with
    | none => files
    | some ig => files.filter (fun f => !containsSub ig f)
  match action with
  | none => files2
  | some act => files2.map act

/-- The discovery contract as the specification words it: "the set of
file paths under D whose name matches one of the listed extensions" —
i.e. only regular files, matched against the default extension list.
Stated only for comparison with `get_files_recursive`, which filters the
raw `rglob` stream without checking that an entry is a file. -/
def specDiscoverDefault (entries : List Entry) : List PyStr :=
  (entries.filter (fun en => en.isFile && defaultPattern en.path)).map
    Entry.path

deriving instance DecidableEq for Except

/-- The Python exception classes this program can let escape or catch. -/
inductive PyErr
  | typeError
  | keyError
  | runtimeError
  | calledProcessError
deriving DecidableEq, Repr

/-- A Python value as far as this program inspects one: whisper's
`model.transcribe` result is a dict (with a `"text"` entry holding a
string), and file handles accept only strings. -/
inductive PyVal
  | str (sv : PyStr)
  | dict (fields : List (PyStr × PyVal))

/-- First-match lookup in a dict's entry list. -/
def dictLookup : List (PyStr × PyVal) → PyStr → Option PyVal
  | [], _ => none
  | (k, v) :: rest, key => if k = key then some v else dictLookup rest key

/-- Python `result[key]`: `KeyError` on a missing dict key, `TypeError`
when subscripting a string with a string. -/
def getItem : PyVal → PyStr → Except PyErr PyVal
  | PyVal.dict fields, key =>
    match dictLookup fields key with
    | some v => Except.ok v
    | none => Except.error PyErr.keyError
  | PyVal.str _, _ => Except.error PyErr.typeError

/-- `f.write(v)` on a text-mode handle: succeeds only on a string,
raises `TypeError` otherwise. -/
def fileWriteVal : PyVal → Except PyErr PyStr
  | PyVal.str sv => Except.ok sv
  | PyVal.dict _ => Except.error PyErr.typeError

/-- The value `subprocess.run(...)` returns on success. -/
structure CompletedProcess where
  args : List PyStr
  returncode : Nat
deriving DecidableEq, Repr

/-- Oracle for one run of the external `whisper` process: its exit code
and whatever it wrote to its standard output (hence into the redirected
file) before exiting. -/
structure SubprocOutcome where
  exitCode : Nat
  stdoutText : PyStr
deriving DecidableEq, Repr

/-- Oracle for the in-process engine
(`whisper.load_model(modelType)` followed by `model.transcribe(file)`):
either some step raises `RuntimeError`, or the whole call yields a
result value.  Both raise points precede every write, so they are
collapsed. -/
inductive EngineResult
  | raise
  | ok (result : PyVal)

/-- Ghost trace events: which branch of the driver ran for a file. -/
inductive Event
  | skipped (f : PyStr)
  | ranCli (f : PyStr)
  | ranEngine (f : PyStr)
deriving DecidableEq, Repr

/-- The file a trace event speaks about. -/
def eventFile : Event → PyStr
  | Event.skipped f => f
  | Event.ranCli f => f
  | Event.ranEngine f => f

/-- What a Python function of this program can return. -/
inductive RetVal
  | path (p : PyStr)
  | proc (cp : CompletedProcess)
deriving DecidableEq, Repr

/-- Outcome of one call: the filesystem afterwards (also at the moment
an exception escapes), the ghost event trace, and either the returned
value or the escaping exception. -/
structure TOut where
  fs : FS
  trace : List Event
  res : Except PyErr RetVal

/-- `".transcribed.txt"`. -/
def transcribedSuffix : PyStr := ".transcribed.txt".data

/-- `".json"`. -/
def jsonSuffix : PyStr := ".json".data

/-- `"text"`. -/
def textKey : PyStr := "text".data

/-- The argument list `["whisper", file, "--model", modelType,
"--language", language]`. -/
def cmdList (file modelType language : PyStr) : List PyStr :=
  ["whisper".data, file, "--model".data, modelType, "--language".data,
   language]

/-- The output path `f"{root_dir}/{file_name_stem}{file_type}.transcribed.txt"`
computed by `transcribe_file_cli`. -/
def cliOutputPath (file : PyStr) : PyStr :=
  pyParentStr file ++ ('/' :: pyStem file) ++ pySuffix file ++
    transcribedSuffix

/-- `transcribe_file_cli(file, modelType, language)`:
opens the output file for writing (creating or truncating it), runs the
external process with its standard output redirected there, and returns
the `CompletedProcess`; `check=True` turns a non-zero exit into an
escaping `CalledProcessError`, after the file already holds whatever
the process wrote. -/
def transcribe_file_cli (sp : SubprocOutcome) (fs : FS) (file : PyStr)
    (modelType language : PyStr) : TOut :=
  let output_file := cliOutputPath file
  let fs1 := fsWrite fs output_file []
  let fs2 := fsWrite fs1 output_file sp.stdoutText
  if sp.exitCode = 0 then
    ⟨fs2, [Event.ranCli file],
      Except.ok (RetVal.proc ⟨cmdList file modelType language,
        sp.exitCode⟩)⟩
  else
    ⟨fs2, [Event.ranCli file], Except.error PyErr.calledProcessError⟩

/-- `transcribe_file(file, modelType, force, climode)`:
skip when `<file>.transcribed.txt` exists and `force` is off; otherwise
dispatch to the CLI strategy or the in-process strategy.  In-process:
on a `RuntimeError` from the engine, catch it and return the input
path; on success, open the output file (truncating), write
`result["text"]`, open the JSON sidecar (truncating), and write
`result` itself to it — a `TypeError` or `KeyError` from those
subscripts/writes is NOT caught by `except RuntimeError` and escapes. -/
def transcribe_file (engine : EngineResult) (sp : SubprocOutcome)
    (fs : FS) (file : PyStr) (modelType : PyStr) (force : Bool)
    (climode : Bool) : TOut :=
  let transcribed_file := file ++ transcribedSuffix
  if fsExists fs transcribed_file && !force then
    ⟨fs, [Event.skipped file], Except.ok (RetVal.path transcribed_file)⟩
  else if climode then
    transcribe_file_cli sp fs file modelType "en".data
  else
    match engine with
    | EngineResult.raise =>
      ⟨fs, [Event.ranEngine file], Except.ok (RetVal.path file)⟩
    | EngineResult.ok result =>
      let fs1 := fsWrite fs transcribed_file []
      match getItem result textKey with
      | Except.error e => ⟨fs1, [Event.ranEngine file], Except.error e⟩
      | Except.ok tv =>
        match fileWriteVal tv with
        | Except.error e => ⟨fs1, [Event.ranEngine file], Except.error e⟩
        | Except.ok t =>
          let fs2 := fsWrite fs1 transcribed_file t
          let jsonFile := transcribed_file ++ jsonSuffix
          let fs3 := fsWrite fs2 jsonFile []
          match fileWriteVal result with
          | Except.error e =>
            ⟨fs3, [Event.ranEngine file], Except.error e⟩
          | Except.ok js =>
            ⟨fsWrite fs3 jsonFile js, [Event.ranEngine file],
              Except.ok (RetVal.path transcribed_file)⟩

/-- The `for f in files: transcribe_file(...)` loop of the `transcribe`
command: per-file oracle behaviour `beh`, state threaded through; an
escaping exception aborts the loop (there is no `try` around the body),
leaving the remaining files unprocessed. -/
def transcribe_loop (beh : PyStr → EngineResult × SubprocOutcome)
    (fs : FS) (modelType : PyStr) (force climode : Bool) :
    List PyStr → FS × List Event × Option PyErr
  | [] => (fs, [], none)
  | f :: rest =>
    let o := transcribe_file (beh f).1 (beh f).2 fs f modelType force
      climode
    match o.res with
    | Except.error e => (o.fs, o.trace, some e)
    | Except.ok _ =>
      let r := transcribe_loop beh o.fs modelType force climode rest
      (r.1, o.trace ++ r.2.1, r.2.2)

/-- The `transcribe` command: discover with
`get_files_recursive(directory, pattern, ignore)` (no action), then
loop `transcribe_file` over the resulting list in order. -/
def transcribe_cmd (entries : List Entry)
    (beh : PyStr → EngineResult × SubprocOutcome) (fs : FS)
    (pattern : Option (PyStr → Bool)) (ignore : Option PyStr)
    (modelType : PyStr) (force climode : Bool) :
    FS × List Event × Option PyErr :=
  transcribe_loop beh fs modelType force climode
    (get_files_recursive entries pattern ignore none)

/-- The empty filesystem, a test fixture. -/
def emptyFS : FS := fun _ => none

/-- A filesystem already holding a transcript for `a.wav`, a test
fixture. -/
def oldFS : FS :=
  fun q => if q = "a.wav.transcribed.txt".data then some "old".data
    else none

/-- An in-process engine run that succeeds with the dict whisper
actually returns (a `"text"` entry and further fields), a test
fixture. -/
def engDictHello : EngineResult :=
  EngineResult.ok (PyVal.dict
    [("text".data, PyVal.str "hello".data),
     ("language".data, PyVal.str "en".data)])

/-! ## Lemmas about the path helpers -/

theorem splitLast_none {c : Char} :
    ∀ {s : PyStr}, splitLast c s = none → c ∉ s := by
  intro s
  induction s with
  | nil => intro _; simp
  | cons x xs ih =>
    intro h
    simp only [splitLast] at h
    split at h
    · exact Option.noConfusion h
    · rename_i hnone
      split at h
      · exact Option.noConfusion h
      · rename_i hne
        intro hmem
        rcases List.mem_cons.mp hmem with h1 | h2
        · exact hne h1.symm
        · exact ih hnone h2

theorem splitLast_append {c : Char} :
    ∀ {s b a : PyStr}, splitLast c s = some (b, a) → s = b ++ c :: a := by
  intro s
  induction s with
  | nil => intro b a h; simp [splitLast] at h
  | cons x xs ih =>
    intro b a h
    simp only [splitLast] at h
    split at h
    · rename_i b' a' heq
      simp only [Option.some.injEq, Prod.mk.injEq] at h
      obtain ⟨rfl, rfl⟩ := h
      simp [ih heq]
    · split at h
      · rename_i hxc
        simp only [Option.some.injEq, Prod.mk.injEq] at h
        obtain ⟨rfl, rfl⟩ := h
        simp [hxc]
      · exact Option.noConfusion h

theorem splitLast_not_mem {c : Char} :
    ∀ {s b a : PyStr}, splitLast c s = some (b, a) → c ∉ a := by
  intro s
  induction s with
  | nil => intro b a h; simp [splitLast] at h
  | cons x xs ih =>
    intro b a h
    simp only [splitLast] at h
    split at h
    · rename_i b' a' heq
      simp only [Option.some.injEq, Prod.mk.injEq] at h
      obtain ⟨rfl, rfl⟩ := h
      exact ih heq
    · rename_i hnone
      split at h
      · simp only [Option.some.injEq, Prod.mk.injEq] at h
        obtain ⟨rfl, rfl⟩ := h
        exact splitLast_none hnone
      · exact Option.noConfusion h

/-- `pathlib` splits a name into stem and suffix without losing
characters. -/
theorem pyStem_append_pySuffix (p : PyStr) :
    pyStem p ++ pySuffix p = pyName p := by
  unfold pyStem pySuffix pySplitExt
  cases h : splitLast '.' (pyName p) with
  | none => simp
  | some ba =>
    obtain ⟨b, a⟩ := ba
    by_cases hcond : b ≠ [] ∧ a ≠ []
    · dsimp only
      rw [if_pos hcond]
      exact (splitLast_append h).symm
    · simp [hcond]

/-- `normPath` changes nothing unless the first two characters are `./`
or `//`. -/
theorem normPath_cons_cons {x y : Char} (rest : PyStr)
    (h1 : ¬(x = '.' ∧ y = '/')) (h2 : ¬(x = '/' ∧ y = '/')) :
    normPath (x :: y :: rest) = x :: y :: rest := by
  unfold normPath
  split
  · rename_i r heq
    injection heq with e1 e2
    injection e2 with e2 e3
    exact absurd ⟨e1, e2⟩ h1
  · rename_i r heq
    injection heq with e1 e2
    injection e2 with e2 e3
    exact absurd ⟨e1, e2⟩ h2
  · rfl

theorem transcribedSuffix_eq :
    transcribedSuffix = '.' :: "transcribed.txt".data := by decide

/-- A slash-free path followed by `".transcribed.txt"` needs no
normalisation. -/
theorem normPath_append_tSfx {p : PyStr} (hp : '/' ∉ p) :
    normPath (p ++ transcribedSuffix) = p ++ transcribedSuffix := by
  match p with
  | [] => decide
  | [x] =>
    rw [List.singleton_append, transcribedSuffix_eq]
    exact normPath_cons_cons _ (fun hc => by simpa using hc.2)
      (fun hc => by simpa using hc.2)
  | x :: y :: r =>
    have hy : y ≠ '/' := fun h => hp (by simp [h])
    rw [List.cons_append, List.cons_append]
    exact normPath_cons_cons _ (fun hc => hy hc.2) (fun hc => hy hc.2)

theorem pyName_eq_of_splitLast {p b a : PyStr}
    (h : splitLast '/' p = some (b, a)) : pyName p = a := by
  unfold pyName; rw [h]

theorem pyName_eq_of_none {p : PyStr}
    (h : splitLast '/' p = none) : pyName p = p := by
  unfold pyName; rw [h]

/-- The location `transcribe_file_cli` writes to is the location named by
the input path with `".transcribed.txt"` appended: the reconstruction
`parent / (stem + suffix)` only ever prepends a redundant `./` (bare
file name) or doubles a leading `/` (file at the root), both of which
the OS resolves away. -/
theorem normPath_cliOutputPath (p : PyStr) :
    normPath (cliOutputPath p) = normPath (p ++ transcribedSuffix) := by
  have hstem := pyStem_append_pySuffix p
  unfold cliOutputPath pyParentStr
  cases h : splitLast '/' p with
  | none =>
    have hn : pyName p = p := pyName_eq_of_none h
    have hp : '/' ∉ p := splitLast_none h
    rw [hn] at hstem
    have harg : ['.'] ++ ('/' :: pyStem p) ++ pySuffix p ++
        transcribedSuffix = '.' :: '/' :: (p ++ transcribedSuffix) :=
      calc ['.'] ++ ('/' :: pyStem p) ++ pySuffix p ++ transcribedSuffix
          = '.' :: '/' ::
            ((pyStem p ++ pySuffix p) ++ transcribedSuffix) := by simp
        _ = '.' :: '/' :: (p ++ transcribedSuffix) := by rw [hstem]
    rw [harg, normPath_append_tSfx hp]
    rfl
  | some ba =>
    obtain ⟨b, a⟩ := ba
    have hn : pyName p = a := pyName_eq_of_splitLast h
    have hpa : p = b ++ '/' :: a := splitLast_append h
    have hna : '/' ∉ a := splitLast_not_mem h
    rw [hn] at hstem
    cases b with
    | nil =>
      have harg : ['/'] ++ ('/' :: pyStem p) ++ pySuffix p ++
          transcribedSuffix = '/' :: '/' :: (a ++ transcribedSuffix) :=
        calc ['/'] ++ ('/' :: pyStem p) ++ pySuffix p ++ transcribedSuffix
            = '/' :: '/' ::
              ((pyStem p ++ pySuffix p) ++ transcribedSuffix) := by simp
          _ = '/' :: '/' :: (a ++ transcribedSuffix) := by rw [hstem]
      rw [harg]
      have hrhs : p ++ transcribedSuffix =
          '/' :: (a ++ transcribedSuffix) := by simp [hpa]
      rw [hrhs]
      have hid : normPath ('/' :: (a ++ transcribedSuffix)) =
          '/' :: (a ++ transcribedSuffix) := by
        cases ha : a with
        | nil => decide
        | cons z zs =>
          have hz : z ≠ '/' := fun hzc => hna (by simp [ha, hzc])
          rw [List.cons_append]
          exact normPath_cons_cons _ (fun hc => by simp at hc)
            (fun hc => hz hc.2)
      rw [hid]
      rfl
    | cons bh bt =>
      have harg : (bh :: bt) ++ ('/' :: pyStem p) ++ pySuffix p ++
          transcribedSuffix = p ++ transcribedSuffix :=
        calc (bh :: bt) ++ ('/' :: pyStem p) ++ pySuffix p ++
              transcribedSuffix
            = (bh :: bt) ++
              ('/' :: ((pyStem p ++ pySuffix p) ++ transcribedSuffix)) := by
              simp
          _ = (bh :: bt) ++ ('/' :: (a ++ transcribedSuffix)) := by
              rw [hstem]
          _ = p ++ transcribedSuffix := by rw [hpa]; simp
      rw [harg]

/-! ## Lemmas about the filesystem model and the regex -/

theorem fsWrite_eval (fs : FS) (p w q : PyStr) :
    fsWrite fs p w q = if q = normPath p then some w else fs q := rfl

/-- Writing twice to the same path keeps the last content. -/
theorem fsWrite_fsWrite (fs : FS) (p v w q : PyStr) :
    fsWrite (fsWrite fs p v) p w q =
      if q = normPath p then some w else fs q := by
  unfold fsWrite
  by_cases h : q = normPath p <;> simp [h]

theorem stripOneNL_eq_self {p : PyStr} (h : '\n' ∉ p) :
    stripOneNL p = p := by
  unfold stripOneNL
  split
  · rename_i rest heq
    exfalso
    apply h
    have hm : '\n' ∈ p.reverse := by rw [heq]; simp
    simpa using hm
  · rfl

/-- On newline-free strings the default regex is just a case-sensitive
extension check. -/
theorem defaultPattern_no_newline {p : PyStr} (h : '\n' ∉ p) :
    defaultPattern p =
      (extList.any fun e => List.isSuffixOf ('.' :: e) p) := by
  unfold defaultPattern
  rw [stripOneNL_eq_self h]
  have hc : p.contains '\n' = false := by
    simpa using h
  have hnotc : (!p.contains '\n') = true := by rw [hc]; rfl
  show (!p.contains '\n' && extList.any fun e =>
    ('.' :: e).isSuffixOf p) = extList.any fun e => ('.' :: e).isSuffixOf p
  rw [hnotc, Bool.true_and]

/-- Membership in the discovery result with the default pattern and no
action, characterised entry-wise. -/
theorem mem_get_files_default {entries : List Entry} {ig : Option PyStr}
    {p : PyStr} :
    p ∈ get_files_recursive entries none ig none ↔
      (p ∈ entries.map Entry.path ∧ defaultPattern p = true ∧
        ∀ s, ig = some s → containsSub s p = false) := by
  unfold get_files_recursive
  cases ig with
  | none =>
    simp [List.mem_filter]
  | some s =>
    simp only [Option.getD]
    constructor
    · intro hm
      have h1 := List.mem_filter.mp hm
      have h2 := List.mem_filter.mp h1.1
      refine ⟨h2.1, h2.2, ?_⟩
      intro s' hs'
      cases hs'
      simpa using h1.2
    · intro ⟨hm, hpat, hig⟩
      refine List.mem_filter.mpr ⟨List.mem_filter.mpr ⟨hm, hpat⟩, ?_⟩
      simpa using hig s rfl

/-! ## Claim C1 -/

/-- Claim C1, as stated, is false: with the default pattern the code
filters the raw `rglob` stream by the path string alone and never checks
that an entry is a regular file, so a DIRECTORY named `clips.wav` is
returned, while the set of file paths whose name matches an extension
(rendered by `specDiscoverDefault`) is empty for that input. -/
theorem C1_counterexample :
    get_files_recursive [⟨"clips.wav".data, false⟩] none none none =
        ["clips.wav".data] ∧
      specDiscoverDefault [⟨"clips.wav".data, false⟩] = [] ∧
      get_files_recursive [⟨"clips.wav".data, false⟩] none none none ≠
        specDiscoverDefault [⟨"clips.wav".data, false⟩] := by
  decide

/-- Claim C1, amended: for every directory (given as its recursive entry
stream), `get_files_recursive` with the default pattern returns exactly
the set of PATHS — files and directories alike — whose newline-free
path string ends, case-sensitively, with a dot followed by one of
wav, mp3, mp4, avi, mov, flv, mkv, wmv, excluding, when an ignore
substring is provided, every path containing that substring. -/
theorem C1_discovery_characterization (entries : List Entry)
    (ig : Option PyStr) (p : PyStr) (hnl : '\n' ∉ p) :
    p ∈ get_files_recursive entries none ig none ↔
      (p ∈ entries.map Entry.path ∧
        (extList.any fun e => List.isSuffixOf ('.' :: e) p) = true ∧
        ∀ s, ig = some s → containsSub s p = false) := by
  rw [mem_get_files_default, defaultPattern_no_newline hnl]

/-- Witness for `C1_discovery_characterization` at a concrete entry
stream. -/
theorem C1_discovery_characterization_witness :
    '\n' ∉ "d/a.mp4".data ∧
      ("d/a.mp4".data ∈ get_files_recursive
          [⟨"d/skip_me.mp4".data, true⟩, ⟨"d/a.mp4".data, true⟩] none
          (some "skip_me".data) none ↔
        ("d/a.mp4".data ∈
            ([⟨"d/skip_me.mp4".data, true⟩,
              ⟨"d/a.mp4".data, true⟩] : List Entry).map Entry.path ∧
          (extList.any fun e =>
            List.isSuffixOf ('.' :: e) "d/a.mp4".data) = true ∧
          ∀ s, (some "skip_me".data : Option PyStr) = some s →
            containsSub s "d/a.mp4".data = false)) :=
  ⟨by decide,
    C1_discovery_characterization
      [⟨"d/skip_me.mp4".data, true⟩, ⟨"d/a.mp4".data, true⟩]
      (some "skip_me".data) "d/a.mp4".data (by decide)⟩

/-! ## Claim C8 -/

/-- Claim C8: every path returned by `get_files_recursive` with an
ignore substring provided (and no action) avoids that substring,
whatever the inclusion pattern matched. -/
theorem C8_exclusion_filter (entries : List Entry)
    (pattern : Option (PyStr → Bool)) (ig p : PyStr)
    (hp : p ∈ get_files_recursive entries pattern (some ig) none) :
    containsSub ig p = false := by
  unfold get_files_recursive at hp
  have h2 := (List.mem_filter.mp hp).2
  simpa using h2

/-- Witness for `C8_exclusion_filter`: a concrete run of the exclusion
filter. -/
theorem C8_exclusion_filter_witness :
    "d/b.mp4".data ∈ get_files_recursive
        [⟨"d/skip_me/a.mp4".data, true⟩, ⟨"d/b.mp4".data, true⟩] none
        (some "skip_me".data) none ∧
      containsSub "skip_me".data "d/b.mp4".data = false :=
  ⟨by decide,
    C8_exclusion_filter
      [⟨"d/skip_me/a.mp4".data, true⟩, ⟨"d/b.mp4".data, true⟩] none
      "skip_me".data "d/b.mp4".data (by decide)⟩

/-! ## Lemmas about the transcription driver -/

/-- The skip branch: output exists and force is off. -/
theorem transcribe_file_skip (eng : EngineResult) (sp : SubprocOutcome)
    (fs : FS) (f m : PyStr) (cl : Bool)
    (h : fsExists fs (f ++ transcribedSuffix) = true) :
    transcribe_file eng sp fs f m false cl =
      ⟨fs, [Event.skipped f],
        Except.ok (RetVal.path (f ++ transcribedSuffix))⟩ := by
  unfold transcribe_file
  simp [h]

/-- When the skip branch is not taken and `climode` is on, the driver is
exactly the CLI strategy with language `"en"`. -/
theorem transcribe_file_to_cli (eng : EngineResult) (sp : SubprocOutcome)
    (fs : FS) (f m : PyStr) (force : Bool)
    (h : (fsExists fs (f ++ transcribedSuffix) && !force) = false) :
    transcribe_file eng sp fs f m force true =
      transcribe_file_cli sp fs f m "en".data := by
  unfold transcribe_file
  simp [h]

/-- The CLI strategy on a zero exit code. -/
theorem transcribe_file_cli_success (sp : SubprocOutcome) (fs : FS)
    (f m lang : PyStr) (h0 : sp.exitCode = 0) :
    transcribe_file_cli sp fs f m lang =
      ⟨fsWrite (fsWrite fs (cliOutputPath f) []) (cliOutputPath f)
          sp.stdoutText,
        [Event.ranCli f],
        Except.ok (RetVal.proc ⟨cmdList f m lang, sp.exitCode⟩)⟩ := by
  unfold transcribe_file_cli
  rw [if_pos h0]

/-- The CLI strategy on a non-zero exit code. -/
theorem transcribe_file_cli_failure (sp : SubprocOutcome) (fs : FS)
    (f m lang : PyStr) (hne : sp.exitCode ≠ 0) :
    transcribe_file_cli sp fs f m lang =
      ⟨fsWrite (fsWrite fs (cliOutputPath f) []) (cliOutputPath f)
          sp.stdoutText,
        [Event.ranCli f], Except.error PyErr.calledProcessError⟩ := by
  unfold transcribe_file_cli
  rw [if_neg hne]

/-- After a successful CLI run the expected output file exists. -/
theorem cli_output_exists (sp : SubprocOutcome) (fs : FS) (f : PyStr) :
    fsExists (fsWrite (fsWrite fs (cliOutputPath f) []) (cliOutputPath f)
        sp.stdoutText) (f ++ transcribedSuffix) = true := by
  show (fsWrite (fsWrite fs (cliOutputPath f) []) (cliOutputPath f)
      sp.stdoutText (normPath (f ++ transcribedSuffix))).isSome = true
  rw [fsWrite_fsWrite, normPath_cliOutputPath f]
  simp

/-! ## Claim C2 -/

/-- Claim C2: (1) whenever `<f>.transcribed.txt` exists and force is
off, `transcribe_file` performs no transcription — the filesystem is
untouched, the only event is `skipped` — and returns the existing
output path; (2) hence two driver calls with `force = false` in CLI
mode on a file with no prior output transcribe once on the first call
(which creates the output) and skip on the second, returning the
existing path. -/
theorem C2_skip_and_idempotence :
    (∀ (eng : EngineResult) (sp : SubprocOutcome) (fs : FS) (f m : PyStr)
        (cl : Bool), fsExists fs (f ++ transcribedSuffix) = true →
        transcribe_file eng sp fs f m false cl =
          ⟨fs, [Event.skipped f],
            Except.ok (RetVal.path (f ++ transcribedSuffix))⟩) ∧
      (∀ (eng : EngineResult) (sp : SubprocOutcome) (fs : FS)
          (f m : PyStr), WFPath f = true →
        fsExists fs (f ++ transcribedSuffix) = false → sp.exitCode = 0 →
        (transcribe_file eng sp fs f m false true).trace =
            [Event.ranCli f] ∧
          fsExists (transcribe_file eng sp fs f m false true).fs
              (f ++ transcribedSuffix) = true ∧
          transcribe_file eng sp
              (transcribe_file eng sp fs f m false true).fs f m false
              true =
            ⟨(transcribe_file eng sp fs f m false true).fs,
              [Event.skipped f],
              Except.ok (RetVal.path (f ++ transcribedSuffix))⟩) := by
  constructor
  · exact fun eng sp fs f m cl h => transcribe_file_skip eng sp fs f m cl h
  · intro eng sp fs f m hwf h h0
    have hcli : transcribe_file eng sp fs f m false true =
        transcribe_file_cli sp fs f m "en".data :=
      transcribe_file_to_cli eng sp fs f m false (by simp [h])
    rw [hcli, transcribe_file_cli_success sp fs f m "en".data h0]
    exact ⟨rfl, cli_output_exists sp fs f,
      transcribe_file_skip eng sp _ f m true
        (cli_output_exists sp fs f)⟩

/-- Witness for `C2_skip_and_idempotence` at concrete inputs. -/
theorem C2_skip_and_idempotence_witness :
    transcribe_file EngineResult.raise ⟨0, "out".data⟩ oldFS "a.wav".data
        "base.en".data false false =
      ⟨oldFS, [Event.skipped "a.wav".data],
        Except.ok (RetVal.path ("a.wav".data ++ transcribedSuffix))⟩ ∧
      (transcribe_file EngineResult.raise ⟨0, "out".data⟩ emptyFS
          "a.wav".data "base.en".data false true).trace =
        [Event.ranCli "a.wav".data] := by
  constructor
  · exact C2_skip_and_idempotence.1 EngineResult.raise ⟨0, "out".data⟩
      oldFS "a.wav".data "base.en".data false (by decide)
  · exact (C2_skip_and_idempotence.2 EngineResult.raise ⟨0, "out".data⟩
      emptyFS "a.wav".data "base.en".data (by decide) (by decide)
      (by decide)).1

/-! ## Claim C3 -/

/-- Claim C3: when the in-process engine call raises `RuntimeError` and
the skip branch is not taken, `transcribe_file` with `climode = false`
catches the error, returns the original input path (it does not raise)
and leaves the filesystem exactly as it was — no output, partial or
otherwise, is written. -/
theorem C3_inprocess_runtime_failure (sp : SubprocOutcome) (fs : FS)
    (f m : PyStr) (force : Bool)
    (h : (fsExists fs (f ++ transcribedSuffix) && !force) = false) :
    transcribe_file EngineResult.raise sp fs f m force false =
      ⟨fs, [Event.ranEngine f], Except.ok (RetVal.path f)⟩ := by
  unfold transcribe_file
  simp [h]

/-- Witness for `C3_inprocess_runtime_failure` on the empty
filesystem. -/
theorem C3_inprocess_runtime_failure_witness :
    transcribe_file EngineResult.raise ⟨0, []⟩ emptyFS "a.wav".data
        "large".data false false =
      ⟨emptyFS, [Event.ranEngine "a.wav".data],
        Except.ok (RetVal.path "a.wav".data)⟩ :=
  C3_inprocess_runtime_failure ⟨0, []⟩ emptyFS "a.wav".data "large".data
    false (by decide)

/-! ## Claim C4 -/

/-- Claim C4 describes the intent, but the code has a bug: after a
successful in-process engine run the plain text IS written to
`<f>.transcribed.txt`, but `jf.write(result)` passes the result dict —
not a string — to a file handle, which raises `TypeError`; `except
RuntimeError` does not catch it, so the call raises instead of
returning the output path, and the JSON sidecar is left behind
EMPTY. -/
theorem C4_inprocess_success_sidecar_bug :
    (transcribe_file engDictHello ⟨0, []⟩ emptyFS "a.wav".data
          "large".data false false).res = Except.error PyErr.typeError ∧
      (transcribe_file engDictHello ⟨0, []⟩ emptyFS "a.wav".data
          "large".data false false).fs "a.wav.transcribed.txt".data =
        some "hello".data ∧
      (transcribe_file engDictHello ⟨0, []⟩ emptyFS "a.wav".data
          "large".data false false).fs
          "a.wav.transcribed.txt.json".data = some [] ∧
      (transcribe_file engDictHello ⟨0, []⟩ emptyFS "a.wav".data
          "large".data false false).trace =
        [Event.ranEngine "a.wav".data] := by
  decide

/-! ## Claim C5 -/

/-- Claim C5: with `force = true` the skip branch is never taken — the
single trace event is a strategy run, never `skipped` — and in CLI mode
with a successful run the pre-existing output file is rewritten with
the new transcription. -/
theorem C5_force_override :
    (∀ (eng : EngineResult) (sp : SubprocOutcome) (fs : FS) (f m : PyStr)
        (cl : Bool),
        (transcribe_file eng sp fs f m true cl).trace =
            [Event.ranCli f] ∨
          (transcribe_file eng sp fs f m true cl).trace =
            [Event.ranEngine f]) ∧
      (∀ (eng : EngineResult) (sp : SubprocOutcome) (fs : FS)
          (f m : PyStr), WFPath f = true →
        fsExists fs (f ++ transcribedSuffix) = true → sp.exitCode = 0 →
        (transcribe_file eng sp fs f m true true).fs
            (normPath (f ++ transcribedSuffix)) = some sp.stdoutText) := by
  constructor
  · intro eng sp fs f m cl
    unfold transcribe_file
    simp only [Bool.not_true, Bool.and_false, Bool.false_eq_true,
      if_false]
    cases cl with
    | true =>
      rw [if_pos rfl]
      left
      unfold transcribe_file_cli
      split <;> rfl
    | false =>
      rw [if_neg (by simp : ¬false = true)]
      right
      cases eng with
      | raise => rfl
      | ok r =>
        repeat' split
        all_goals rfl
  · intro eng sp fs f m hwf hex h0
    have hcli : transcribe_file eng sp fs f m true true =
        transcribe_file_cli sp fs f m "en".data :=
      transcribe_file_to_cli eng sp fs f m true (by simp)
    rw [hcli, transcribe_file_cli_success sp fs f m "en".data h0]
    show fsWrite (fsWrite fs (cliOutputPath f) []) (cliOutputPath f)
      sp.stdoutText (normPath (f ++ transcribedSuffix)) = some sp.stdoutText
    rw [fsWrite_fsWrite, normPath_cliOutputPath f]
    simp

/-- Witness for `C5_force_override`: forcing on a filesystem that
already holds an old transcript rewrites it. -/
theorem C5_force_override_witness :
    ((transcribe_file EngineResult.raise ⟨0, "new".data⟩ oldFS
          "a.wav".data "base.en".data true true).trace =
          [Event.ranCli "a.wav".data] ∨
        (transcribe_file EngineResult.raise ⟨0, "new".data⟩ oldFS
            "a.wav".data "base.en".data true true).trace =
          [Event.ranEngine "a.wav".data]) ∧
      (transcribe_file EngineResult.raise ⟨0, "new".data⟩ oldFS
          "a.wav".data "base.en".data true true).fs
          (normPath ("a.wav".data ++ transcribedSuffix)) =
        some "new".data :=
  ⟨C5_force_override.1 EngineResult.raise ⟨0, "new".data⟩ oldFS
      "a.wav".data "base.en".data true,
    C5_force_override.2 EngineResult.raise ⟨0, "new".data⟩ oldFS
      "a.wav".data "base.en".data (by decide) (by decide) (by decide)⟩

/-! ## Claim C6 -/

/-- Claim C6: on a successful run, the CLI strategy writes exactly one
file, at the location named by the input path with `".transcribed.txt"`
appended (the string it builds from parent, stem and suffix may carry a
redundant `./` or a doubled leading `/`, which the OS resolves to that
same location), its content is the external tool's standard output
captured verbatim, and the call returns the completed process. -/
theorem C6_cli_output_naming (sp : SubprocOutcome) (fs : FS)
    (f m lang : PyStr) (hwf : WFPath f = true) (h0 : sp.exitCode = 0) :
    (transcribe_file_cli sp fs f m lang).res =
        Except.ok (RetVal.proc ⟨cmdList f m lang, sp.exitCode⟩) ∧
      ∀ q, (transcribe_file_cli sp fs f m lang).fs q =
        if q = normPath (f ++ transcribedSuffix) then some sp.stdoutText
        else fs q := by
  rw [transcribe_file_cli_success sp fs f m lang h0]
  refine ⟨rfl, ?_⟩
  intro q
  show fsWrite (fsWrite fs (cliOutputPath f) []) (cliOutputPath f)
    sp.stdoutText q =
      if q = normPath (f ++ transcribedSuffix) then some sp.stdoutText
      else fs q
  rw [fsWrite_fsWrite, normPath_cliOutputPath f]

/-- Witness for `C6_cli_output_naming` at `a.wav`. -/
theorem C6_cli_output_naming_witness :
    (transcribe_file_cli ⟨0, "out".data⟩ emptyFS "a.wav".data
          "base.en".data "en".data).res =
        Except.ok (RetVal.proc
          ⟨cmdList "a.wav".data "base.en".data "en".data, 0⟩) ∧
      (transcribe_file_cli ⟨0, "out".data⟩ emptyFS "a.wav".data
          "base.en".data "en".data).fs "a.wav.transcribed.txt".data =
        some "out".data := by
  have h := C6_cli_output_naming ⟨0, "out".data⟩ emptyFS "a.wav".data
    "base.en".data "en".data (by decide) (by decide)
  refine ⟨h.1, ?_⟩
  rw [h.2 "a.wav.transcribed.txt".data]
  decide

/-! ## Claim C7 -/

/-- Claim C7: a non-zero exit of the external process makes
`transcribe_file_cli` raise `CalledProcessError` (and `transcribe_file`
in CLI mode propagates it); there is exactly one run attempt (one
`ranCli` event, no retry) and the output file it had already opened is
left behind holding whatever the process wrote — possibly empty — with
no cleanup. -/
theorem C7_cli_failure_propagates (sp : SubprocOutcome) (fs : FS)
    (f m lang : PyStr) (eng : EngineResult) (force : Bool)
    (hne : sp.exitCode ≠ 0)
    (hskip : (fsExists fs (f ++ transcribedSuffix) && !force) = false) :
    (transcribe_file_cli sp fs f m lang).res =
        Except.error PyErr.calledProcessError ∧
      (transcribe_file_cli sp fs f m lang).trace = [Event.ranCli f] ∧
      (transcribe_file_cli sp fs f m lang).fs
          (normPath (f ++ transcribedSuffix)) = some sp.stdoutText ∧
      (transcribe_file eng sp fs f m force true).res =
        Except.error PyErr.calledProcessError := by
  rw [transcribe_file_to_cli eng sp fs f m force hskip,
    transcribe_file_cli_failure sp fs f m lang hne,
    transcribe_file_cli_failure sp fs f m "en".data hne]
  refine ⟨rfl, rfl, ?_, rfl⟩
  show fsWrite (fsWrite fs (cliOutputPath f) []) (cliOutputPath f)
    sp.stdoutText (normPath (f ++ transcribedSuffix)) = some sp.stdoutText
  rw [fsWrite_fsWrite, normPath_cliOutputPath f]
  simp

/-- Witness for `C7_cli_failure_propagates`: exit code 1 with an empty
stdout leaves an empty output file and an escaping error. -/
theorem C7_cli_failure_propagates_witness :
    (transcribe_file_cli ⟨1, []⟩ emptyFS "a.wav".data "base.en".data
          "en".data).res = Except.error PyErr.calledProcessError ∧
      (transcribe_file_cli ⟨1, []⟩ emptyFS "a.wav".data "base.en".data
          "en".data).fs
          (normPath ("a.wav".data ++ transcribedSuffix)) = some [] :=
  ⟨(C7_cli_failure_propagates ⟨1, []⟩ emptyFS "a.wav".data "base.en".data
      "en".data EngineResult.raise false (by decide) (by decide)).1,
    (C7_cli_failure_propagates ⟨1, []⟩ emptyFS "a.wav".data "base.en".data
      "en".data EngineResult.raise false (by decide) (by decide)).2.2.1⟩

/-! ## Claim C10 -/

/-- Claim C10: the driver's return value is a path string only on the
skip branch (which returns the existing output path) and the in-process
branch; when the CLI strategy runs and succeeds the driver returns the
`CompletedProcess` object produced by `transcribe_file_cli` — never a
path — so in CLI mode a path return implies the skip branch was
taken. -/
theorem C10_return_type_inconsistency :
    (∀ (eng : EngineResult) (sp : SubprocOutcome) (fs : FS) (f m : PyStr)
        (cl : Bool), fsExists fs (f ++ transcribedSuffix) = true →
        (transcribe_file eng sp fs f m false cl).res =
          Except.ok (RetVal.path (f ++ transcribedSuffix))) ∧
      (∀ (eng : EngineResult) (sp : SubprocOutcome) (fs : FS)
          (f m : PyStr) (force : Bool),
        (fsExists fs (f ++ transcribedSuffix) && !force) = false →
        sp.exitCode = 0 →
        (transcribe_file eng sp fs f m force true).res =
            Except.ok (RetVal.proc ⟨cmdList f m "en".data,
              sp.exitCode⟩) ∧
          ∀ p, (transcribe_file eng sp fs f m force true).res ≠
            Except.ok (RetVal.path p)) ∧
      (∀ (eng : EngineResult) (sp : SubprocOutcome) (fs : FS)
          (f m : PyStr) (force : Bool) (p : PyStr),
        (transcribe_file eng sp fs f m force true).res =
          Except.ok (RetVal.path p) →
        (fsExists fs (f ++ transcribedSuffix) && !force) = true) := by
  refine ⟨?_, ?_, ?_⟩
  · intro eng sp fs f m cl h
    rw [transcribe_file_skip eng sp fs f m cl h]
  · intro eng sp fs f m force hskip h0
    rw [transcribe_file_to_cli eng sp fs f m force hskip,
      transcribe_file_cli_success sp fs f m "en".data h0]
    exact ⟨rfl, fun p hp => by cases hp⟩
  · intro eng sp fs f m force p hres
    by_cases hskip : (fsExists fs (f ++ transcribedSuffix) && !force)
        = true
    · exact hskip
    · exfalso
      rw [transcribe_file_to_cli eng sp fs f m force
        (Bool.not_eq_true _ ▸ Bool.eq_false_iff.mpr hskip)] at hres
      unfold transcribe_file_cli at hres
      split at hres <;> cases hres

/-- Witness for `C10_return_type_inconsistency`: skip returns a path,
a successful CLI run returns the completed process. -/
theorem C10_return_type_inconsistency_witness :
    (transcribe_file EngineResult.raise ⟨0, "out".data⟩ oldFS
          "a.wav".data "base.en".data false true).res =
        Except.ok (RetVal.path ("a.wav".data ++ transcribedSuffix)) ∧
      (transcribe_file EngineResult.raise ⟨0, "out".data⟩ emptyFS
          "a.wav".data "base.en".data false true).res =
        Except.ok (RetVal.proc
          ⟨cmdList "a.wav".data "base.en".data "en".data, 0⟩) :=
  ⟨C10_return_type_inconsistency.1 EngineResult.raise ⟨0, "out".data⟩
      oldFS "a.wav".data "base.en".data true (by decide),
    (C10_return_type_inconsistency.2.1 EngineResult.raise
      ⟨0, "out".data⟩ emptyFS "a.wav".data "base.en".data false
      (by decide) (by decide)).1⟩

/-! ## Claim C9 -/

/-- Every driver call emits exactly one event, tagged with its own
file. -/
theorem transcribe_file_trace_map (eng : EngineResult)
    (sp : SubprocOutcome) (fs : FS) (f m : PyStr) (force cl : Bool) :
    (transcribe_file eng sp fs f m force cl).trace.map eventFile =
      [f] := by
  unfold transcribe_file transcribe_file_cli
  dsimp only
  repeat' split
  all_goals rfl

/-- The driver loop touches, in order, exactly a leading portion of its
file list — all of it when no exception escapes. -/
theorem transcribe_loop_take (beh : PyStr → EngineResult × SubprocOutcome)
    (m : PyStr) (force cl : Bool) :
    ∀ (files : List PyStr) (fs : FS),
      ∃ k, k ≤ files.length ∧
        (transcribe_loop beh fs m force cl files).2.1.map eventFile =
          files.take k ∧
        ((transcribe_loop beh fs m force cl files).2.2 = none →
          k = files.length) := by
  intro files
  induction files with
  | nil =>
    intro fs
    exact ⟨0, Nat.le_refl 0, rfl, fun _ => rfl⟩
  | cons f rest ih =>
    intro fs
    unfold transcribe_loop
    cases hres : (transcribe_file (beh f).1 (beh f).2 fs f m force
        cl).res with
    | error e =>
      refine ⟨1, by simp, ?_, ?_⟩
      · simp only [hres]
        rw [List.take_succ_cons, List.take_zero]
        exact transcribe_file_trace_map (beh f).1 (beh f).2 fs f m force
          cl
      · intro hnone
        simp [hres] at hnone
    | ok v =>
      obtain ⟨k, hk, h1, h2⟩ := ih (transcribe_file (beh f).1 (beh f).2
        fs f m force cl).fs
      refine ⟨k + 1, by simpa using Nat.succ_le_succ hk, ?_, ?_⟩
      · simp only [hres]
        rw [List.take_succ_cons]
        show ((transcribe_file (beh f).1 (beh f).2 fs f m force
            cl).trace ++
          (transcribe_loop beh (transcribe_file (beh f).1 (beh f).2 fs f
            m force cl).fs m force cl rest).2.1).map eventFile =
          f :: rest.take k
        rw [List.map_append, transcribe_file_trace_map, h1]
        rfl
      · intro hnone
        simp only [hres] at hnone
        have hk2 := h2 hnone
        simp [hk2]

/-- Claim C9, as stated, is false: an escaping exception aborts the
`for` loop, so the `transcribe` command does not always process every
discovered file — on two discovered files whose external transcription
exits non-zero, only the first is attempted and the second stays
pending. -/
theorem C9_counterexample :
    get_files_recursive [⟨"a.wav".data, true⟩, ⟨"b.wav".data, true⟩]
        none none none = ["a.wav".data, "b.wav".data] ∧
      (transcribe_cmd [⟨"a.wav".data, true⟩, ⟨"b.wav".data, true⟩]
            (fun _ => (EngineResult.raise, ⟨1, []⟩)) emptyFS none none
            "base.en".data false true).2.1.map eventFile =
        ["a.wav".data] ∧
      (transcribe_cmd [⟨"a.wav".data, true⟩, ⟨"b.wav".data, true⟩]
            (fun _ => (EngineResult.raise, ⟨1, []⟩)) emptyFS none none
            "base.en".data false true).2.1.map eventFile ≠
        get_files_recursive [⟨"a.wav".data, true⟩, ⟨"b.wav".data, true⟩]
          none none none := by
  decide

/-- Claim C9, amended: the `transcribe` command attempts, strictly one
at a time and in list order, a leading portion of the files returned by
`get_files_recursive(directory, pattern, ignore)` — all of them
whenever no exception escapes a driver call — and each file goes
through `transcribe_file` at most once per invocation (the attempted
files are pairwise distinct when the discovered list is). -/
theorem C9_sequential_prefix (entries : List Entry)
    (beh : PyStr → EngineResult × SubprocOutcome) (fs : FS)
    (pattern : Option (PyStr → Bool)) (ignore : Option PyStr)
    (m : PyStr) (force cl : Bool) :
    ∃ k, k ≤ (get_files_recursive entries pattern ignore none).length ∧
      (transcribe_cmd entries beh fs pattern ignore m force cl).2.1.map
          eventFile =
        (get_files_recursive entries pattern ignore none).take k ∧
      ((transcribe_cmd entries beh fs pattern ignore m force cl).2.2 =
          none →
        (transcribe_cmd entries beh fs pattern ignore m force
            cl).2.1.map eventFile =
          get_files_recursive entries pattern ignore none) ∧
      ((get_files_recursive entries pattern ignore none).Nodup →
        ((transcribe_cmd entries beh fs pattern ignore m force
            cl).2.1.map eventFile).Nodup) := by
  unfold transcribe_cmd
  obtain ⟨k, hk, h1, h2⟩ := transcribe_loop_take beh m force cl
    (get_files_recursive entries pattern ignore none) fs
  refine ⟨k, hk, h1, ?_, ?_⟩
  · intro hnone
    rw [h1, h2 hnone]
    exact List.take_length _
  · intro hnodup
    rw [h1]
    exact hnodup.sublist (List.take_sublist k _)

/-- Witness for `C9_sequential_prefix`: a clean one-file run attempts
exactly the discovered list. -/
theorem C9_sequential_prefix_witness :
    (transcribe_cmd [⟨"a.wav".data, true⟩]
        (fun _ => (EngineResult.raise, ⟨0, "t".data⟩)) emptyFS none none
        "base.en".data false true).2.1.map eventFile =
      get_files_recursive [⟨"a.wav".data, true⟩] none none none := by
  obtain ⟨k, hk, h1, h2, h3⟩ := C9_sequential_prefix
    [⟨"a.wav".data, true⟩] (fun _ => (EngineResult.raise, ⟨0, "t".data⟩))
    emptyFS none none "base.en".data false true
  exact h2 (by decide)
